import Mathlib

/-!
Verification of the ThatNightSky sky-computation engine
(`src/thatnightsky/compute.py`) against its specification.

The Python source is shallowly embedded: the geocoding path
(`_geocode_vworld`, `_geocode_nominatim`, `geocode_address`) becomes a
computable function over rationals parameterised by provider oracles;
the sky-computation path (`compute_sky_data`,
`_compute_constellation_positions`, `load_constellation_lines`) becomes
functions over real numbers, with the skyfield altitude/azimuth results
supplied by an oracle (skyfield is an external library, outside the
engine).  Python float arithmetic is modelled by exact real arithmetic.
-/

namespace ThatNightSky

/-! ### Geocoding model (compute.py lines 35-132)

Network calls are modelled by oracles recording the outcome each HTTP
call would have.  Python exceptions become an explicit error type:
`GeocodingError` (the class defined in compute.py) is distinguished from
every other exception (httpx transport/status errors, `ValueError` from
`strptime`, pytz localize errors) because `geocode_address` catches
exactly `GeocodingError` on the vworld path. -/

/-- Structured content of the `GeocodingError` messages raised in
compute.py: `f"Address not found: {address}"` (line 119),
`f"vworld error: {...}"` (line 59), and
`f"Timezone not found: lat={lat}, lng={lng}"` (line 126). -/
inductive GeoMsg where
  | addressNotFound (address : String)
  | vworldError (s : String)
  | timezoneNotFound (lat lng : ℚ)
deriving DecidableEq

/-- Exceptions that can escape the geocoding path. -/
inductive PyExc where
  | geocodingError (m : GeoMsg)
  | httpError (e : String)
  | valueError
  | localizeError
deriving DecidableEq

/-- `True` exactly for the `GeocodingError` exception class. -/
def PyExc.isGeocodingError : PyExc → Bool
  | .geocodingError _ => true
  | _ => false

/-- Observable outcome of one vworld HTTP round trip (`_geocode_vworld`,
lines 39-59): an `OK` response carrying `point.x`, `point.y` and
`refined.text`; an explicit `NOT_FOUND` status; any other status (which
raises `GeocodingError`); or a transport-level failure of `httpx.get` /
`raise_for_status` / JSON decoding, which raises an httpx exception. -/
inductive VwOutcome where
  | ok (x y : ℚ) (refined : String)
  | notFound
  | errStatus (s : String)
  | transport (e : String)
deriving DecidableEq

def VwOutcome.isMatch : VwOutcome → Bool
  | .ok _ _ _ => true
  | _ => false

def VwOutcome.isNotFound : VwOutcome → Bool
  | .notFound => true
  | _ => false

def VwOutcome.isTransport : VwOutcome → Bool
  | .transport _ => true
  | _ => false

/-- Observable outcome of one Nominatim call (`_geocode_nominatim`,
lines 62-79): first result `(lat, lon, display_name)`, an empty result
list, or a transport-level failure. -/
inductive NmOutcome where
  | ok (lat lng : ℚ) (display : String)
  | notFound
  | transport (e : String)
deriving DecidableEq

/-- Environment of one `geocode_address` call: language, whether
`VWORLD_API_KEY` is set (and truthy), the vworld oracle keyed by the
`type` parameter (`"ROAD"` / `"PARCEL"`), the Nominatim oracle, whether
`datetime.strptime` accepts the `when` string, the
`TimezoneFinder.timezone_at` oracle, and the pytz localize/astimezone
oracle (`none` models an `AmbiguousTimeError`/`NonExistentTimeError`). -/
structure GeoEnv where
  lang : String
  hasVworldKey : Bool
  vw : String → VwOutcome
  nm : NmOutcome
  parseOk : Bool
  tzAt : ℚ → ℚ → Option String
  localize : String → Option ℤ

/-- Result of geocoding: compute.py's `ObserverContext` (models.py). -/
structure ObserverContext where
  lat : ℚ
  lng : ℚ
  utcDt : ℤ
  addressDisplay : String
deriving DecidableEq

/-- `_geocode_vworld` (lines 39-59): returns the parsed payload on
`OK`, `none` on `NOT_FOUND`, raises `GeocodingError` on any other
status, and lets transport exceptions propagate. -/
def geocodeVworld (o : VwOutcome) : Except PyExc (Option (ℚ × ℚ × String)) :=
  match o with
  | .ok x y refined => .ok (some (x, y, refined))
  | .notFound => .ok none
  | .errStatus s => .error (.geocodingError (.vworldError s))
  | .transport e => .error (.httpError e)

/-- The vworld branch of `geocode_address` (lines 103-114):
`_geocode_vworld(address, "ROAD") or _geocode_vworld(address, "PARCEL")`
inside `try ... except GeocodingError: pass`.  Python's `or`
short-circuits on a truthy dict, and an exception in the first call
skips the second.  Only `GeocodingError` is caught; every other
exception propagates.  On a match, `lng = point["x"]`, `lat =
point["y"]`, and `refined.text` becomes the display address, so the
branch yields `(lat, lng, display) = (y, x, refined)`. -/
def vworldLookup (env : GeoEnv) : Except PyExc (Option (ℚ × ℚ × String)) :=
  match geocodeVworld (env.vw "ROAD") with
  | .ok (some (x, y, refined)) => .ok (some (y, x, refined))
  | .ok none =>
      match geocodeVworld (env.vw "PARCEL") with
      | .ok (some (x, y, refined)) => .ok (some (y, x, refined))
      | .ok none => .ok none
      | .error (.geocodingError _) => .ok none
      | .error e => .error e
  | .error (.geocodingError _) => .ok none
  | .error e => .error e

/-- Coordinate resolution (lines 99-120): vworld branch when
`lang == "ko"` and the key is set, then Nominatim when no regional
match; raises `GeocodingError(f"Address not found: {address}")` when
Nominatim returns no result. -/
def resolveCoords (address : String) (env : GeoEnv) :
    Except PyExc (ℚ × ℚ × String) :=
  match (if env.lang = "ko" ∧ env.hasVworldKey = true then
           vworldLookup env
         else .ok none) with
  | .error e => .error e
  | .ok (some r) => .ok r
  | .ok none =>
      match env.nm with
      | .ok lat lng display => .ok (lat, lng, display)
      | .notFound => .error (.geocodingError (.addressNotFound address))
      | .transport e => .error (.httpError e)

/-- Observer-frame construction (lines 122-132): parse `when`
(`strptime` raises `ValueError` on failure), look up the timezone
(raising `GeocodingError(f"Timezone not found: ...")` on `None`),
then localize to UTC. -/
def buildFrame (env : GeoEnv) (lat lng : ℚ) (display : String) :
    Except PyExc ObserverContext :=
  if env.parseOk = false then .error .valueError
  else
    match env.tzAt lat lng with
    | none => .error (.geocodingError (.timezoneNotFound lat lng))
    | some z =>
        match env.localize z with
        | none => .error .localizeError
        | some t => .ok ⟨lat, lng, t, display⟩

/-- `geocode_address` (lines 82-132): coordinate resolution followed by
observer-frame construction. -/
def geocode_address (address : String) (env : GeoEnv) :
    Except PyExc ObserverContext :=
  match resolveCoords address env with
  | .error e => .error e
  | .ok (lat, lng, display) => buildFrame env lat lng display

/-! ### Constellation line table (compute.py lines 257-279)

One line of `constellationship.fab` is modelled after
`raw.split()` and `int(...)` conversion: `parts[0]` is the IAU
abbreviation and `parts[1:]` (the pair count followed by the HIP
numbers, all numeric in the shipped file) is `fields`.  A line with
`len(parts) < 4` is skipped; otherwise consecutive non-overlapping
pairs of `parts[2:]` become segments
(`range(0, len(hips) - 1, 2)`). -/

structure ConstellationLine where
  hip_from : ℤ
  hip_to : ℤ
  name : String
deriving DecidableEq

structure FabRecord where
  name : String
  fields : List ℤ
deriving DecidableEq

/-- Consecutive non-overlapping pairs `(hips[0],hips[1]),
(hips[2],hips[3]), ...`; a trailing unpaired ID is dropped, exactly as
`range(0, len(hips) - 1, 2)` does. -/
def pairSegs (name : String) : List ℤ → List ConstellationLine
  | a :: b :: rest => ⟨a, b, name⟩ :: pairSegs name rest
  | _ => []

/-- `load_constellation_lines` on an already-tokenised file. -/
def load_constellation_lines (recs : List FabRecord) : List ConstellationLine :=
  recs.flatMap fun r =>
    if r.fields.length + 1 < 4 then []
    else pairSegs r.name (r.fields.drop 1)

/-! ### Sky computation model (compute.py lines 135-254)

The Hipparcos dataframe row is modelled by `CatalogRow`; a NaN
`ra_degrees`/`dec_degrees` entry (dropped by `dropna`) is modelled by
`none`.  The skyfield projection and alt/az results for each retained
star are supplied by an oracle `sky : ℤ → ℝ × ℝ × ℝ × ℝ` giving
`(x, y, az_deg, alt_deg)` per HIP number (skyfield is an external
collaborator; HIP numbers are unique catalog keys). -/

structure CatalogRow where
  hip : ℤ
  ra : Option ℝ
  dec : Option ℝ
  magnitude : ℝ

structure StarRecord where
  hip : ℤ
  ra_deg : ℝ
  dec_deg : ℝ
  magnitude : ℝ
  x : ℝ
  y : ℝ
  az_deg : ℝ
  alt_deg : ℝ

structure ConstellationPosition where
  name : String
  az_deg : ℝ
  alt_deg : ℝ

structure SkyData where
  stars : List StarRecord
  constellation_lines : List ConstellationLine
  limiting_magnitude : ℝ
  constellation_positions : List ConstellationPosition

/-- `math.radians` : degrees to radians. -/
noncomputable def radians (d : ℝ) : ℝ := d * Real.pi / 180

/-- `math.degrees` : radians to degrees. -/
noncomputable def degrees (r : ℝ) : ℝ := r * 180 / Real.pi

/-- `math.atan2 y x`, as the argument of the complex number `x + y·i`,
valued in `(-π, π]` (atan2's value at `(0,0)` is `0`, matching
`Complex.arg 0 = 0`). -/
noncomputable def atan2 (y x : ℝ) : ℝ := Complex.arg (x + y * Complex.I)

/-- Python's `%` on reals with positive modulus `360`: the
representative of `x` in `[0, 360)`. -/
noncomputable def fmod360 (x : ℝ) : ℝ := x - 360 * (⌊x / 360⌋ : ℝ)

/-- Python's built-in `round` to an integer: round half to even. -/
noncomputable def pyRound (x : ℝ) : ℤ :=
  if Int.fract x < 1 / 2 then ⌊x⌋
  else if 1 / 2 < Int.fract x then ⌊x⌋ + 1
  else if ⌊x⌋ % 2 = 0 then ⌊x⌋ else ⌊x⌋ + 1

/-- Python's `round(x, 1)`: one decimal digit. -/
noncomputable def round1 (x : ℝ) : ℝ := (pyRound (10 * x) : ℝ) / 10

/-- Lines 160-163: `stars_df[stars_df["magnitude"] <= limit]` followed
by `dropna(subset=["ra_degrees", "dec_degrees"])`. -/
noncomputable def starsDf (catalog : List CatalogRow) (lim : ℝ) : List CatalogRow :=
  (catalog.filter fun r => r.magnitude ≤ lim).filter fun r =>
    r.ra.isSome ∧ r.dec.isSome

/-- Lines 175-188: one `StarRecord` per retained dataframe row, in row
order, with projection and alt/az taken from the skyfield oracle. -/
noncomputable def buildRecords (catalog : List CatalogRow) (lim : ℝ)
    (sky : ℤ → ℝ × ℝ × ℝ × ℝ) : List StarRecord :=
  (starsDf catalog lim).map fun r =>
    { hip := r.hip
      ra_deg := r.ra.getD 0
      dec_deg := r.dec.getD 0
      magnitude := r.magnitude
      x := (sky r.hip).1
      y := (sky r.hip).2.1
      az_deg := (sky r.hip).2.2.1
      alt_deg := (sky r.hip).2.2.2 }

/-- Line 190: `{r.hip for r in records if r.alt_deg >= 0}`. -/
noncomputable def visibleHips (records : List StarRecord) : List ℤ :=
  (records.filter fun r => 0 ≤ r.alt_deg).map fun r => r.hip

/-- Lines 192-196: segments whose two endpoints are both above-horizon
HIP numbers, in table order. -/
noncomputable def visibleLines (allLines : List ConstellationLine)
    (records : List StarRecord) : List ConstellationLine :=
  allLines.filter fun l =>
    l.hip_from ∈ visibleHips records ∧ l.hip_to ∈ visibleHips records

/-- Line 197: `dict.fromkeys` de-duplication, keeping first
occurrences in order. -/
def dedupFirst : List String → List String
  | [] => []
  | a :: l => a :: dedupFirst (l.filter fun b => b ≠ a)
termination_by l => l.length
decreasing_by
  simp only [List.length_cons]
  exact Nat.lt_succ_of_le (l.length_filter_le _)

/-- Line 218: `{r.hip: r for r in records if r.alt_deg >= 0}` — a dict
keyed by HIP where a later record overwrites an earlier one. -/
noncomputable def lookupRec (records : List StarRecord) (h : ℤ) :
    Option StarRecord :=
  ((records.filter fun r => 0 ≤ r.alt_deg).reverse).find? fun r => r.hip = h

/-- Lines 222-228: the set of above-horizon HIP numbers referenced by a
constellation's segments (Python builds a `set`; order is irrelevant to
the real-valued sums below, so insertion order with duplicates removed
is used). -/
noncomputable def constellationHips (allLines : List ConstellationLine)
    (records : List StarRecord) (name : String) : List ℤ :=
  ((((allLines.filter fun l => l.name = name).flatMap fun l =>
      [l.hip_from, l.hip_to]).filter fun h =>
        (lookupRec records h).isSome)).dedup

/-- Lines 236-247: brightness-weighted circular mean azimuth and
weighted mean altitude of a member-star list. -/
noncomputable def meanPosition (stars : List StarRecord) : ℝ × ℝ :=
  let totalW := (stars.map fun s => 1 / (s.magnitude + 3)).sum
  let sinSum := (stars.map fun s =>
    (1 / (s.magnitude + 3)) * Real.sin (radians s.az_deg)).sum
  let cosSum := (stars.map fun s =>
    (1 / (s.magnitude + 3)) * Real.cos (radians s.az_deg)).sum
  (fmod360 (degrees (atan2 (sinSum / totalW) (cosSum / totalW))),
   (stars.map fun s => (1 / (s.magnitude + 3)) * s.alt_deg).sum / totalW)

/-- The member stars of one constellation (line 235: every collected
HIP resolves in the dict, so `filterMap` keeps them all). -/
noncomputable def memberStars (allLines : List ConstellationLine)
    (records : List StarRecord) (name : String) : List StarRecord :=
  (constellationHips allLines records name).filterMap (lookupRec records)

/-- Loop body of lines 231-252 for one visible name: skip names with no
above-horizon member star (`if not hips: continue`), otherwise emit the
rounded weighted mean position. -/
noncomputable def positionOf (allLines : List ConstellationLine)
    (records : List StarRecord) (name : String) :
    Option ConstellationPosition :=
  if constellationHips allLines records name = [] then none
  else
    some ⟨name,
      round1 (meanPosition (memberStars allLines records name)).1,
      round1 (meanPosition (memberStars allLines records name)).2⟩

/-- `_compute_constellation_positions` (lines 209-254). -/
noncomputable def computeConstellationPositions
    (allLines : List ConstellationLine) (records : List StarRecord)
    (visibleNames : List String) : List ConstellationPosition :=
  visibleNames.filterMap (positionOf allLines records)

/-- `compute_sky_data` (lines 135-206), with the constellation table
passed in place of the `load_constellation_lines()` file read. -/
noncomputable def compute_sky_data (catalog : List CatalogRow)
    (allLines : List ConstellationLine) (sky : ℤ → ℝ × ℝ × ℝ × ℝ)
    (lim : ℝ) : SkyData :=
  let records := buildRecords catalog lim sky
  let vLines := visibleLines allLines records
  let vNames := dedupFirst (vLines.map fun l => l.name)
  { stars := records
    constellation_lines := vLines
    limiting_magnitude := lim
    constellation_positions :=
      computeConstellationPositions allLines records vNames }

/-! ### Theorems: the geocoding path -/

/-- C1: at a regional transport failure (e.g. `httpx.ConnectTimeout`)
with the regional hint and credentials configured and the global
provider able to succeed, `geocode_address` propagates the transport
exception instead of falling through to the global provider; by
contrast, the same call with a vworld protocol-status error
(`GeocodingError`) does fall through and returns the global result. -/
theorem C1_transport_error_aborts_resolution :
    geocode_address "Busan Gaya-dong"
      { lang := "ko", hasVworldKey := true
        vw := fun _ => .transport "httpx.ConnectTimeout"
        nm := .ok 35 129 "Busan, South Korea"
        parseOk := true
        tzAt := fun _ _ => some "Asia/Seoul"
        localize := fun _ => some 0 } =
      .error (.httpError "httpx.ConnectTimeout") ∧
    geocode_address "Busan Gaya-dong"
      { lang := "ko", hasVworldKey := true
        vw := fun _ => .errStatus "SYSTEM_ERROR"
        nm := .ok 35 129 "Busan, South Korea"
        parseOk := true
        tzAt := fun _ _ => some "Asia/Seoul"
        localize := fun _ => some 0 } =
      .ok ⟨35, 129, 0, "Busan, South Korea"⟩ :=
  ⟨rfl, rfl⟩

/-- C7 counterexample: the claim says the `AddressNotFound` failure
carries the attempted providers; but two exhausted queries whose
attempted provider sets differ (regional+global versus global only)
raise exceptions that are equal as values, so the raised error carries
no information about the attempted providers — only the original
address string. -/
theorem C7_error_lacks_provider_info :
    geocode_address "Atlantis"
      { lang := "ko", hasVworldKey := true
        vw := fun _ => .errStatus "SYSTEM_ERROR"
        nm := .notFound
        parseOk := true
        tzAt := fun _ _ => some "UTC"
        localize := fun _ => some 0 } =
    geocode_address "Atlantis"
      { lang := "en", hasVworldKey := false
        vw := fun _ => .notFound
        nm := .notFound
        parseOk := true
        tzAt := fun _ _ => some "UTC"
        localize := fun _ => some 0 } ∧
    geocode_address "Atlantis"
      { lang := "ko", hasVworldKey := true
        vw := fun _ => .errStatus "SYSTEM_ERROR"
        nm := .notFound
        parseOk := true
        tzAt := fun _ _ => some "UTC"
        localize := fun _ => some 0 } =
      .error (.geocodingError (.addressNotFound "Atlantis")) :=
  ⟨rfl, rfl⟩

/-- C7 (amended): when no provider returns a match (the regional
provider, whatever it was asked, neither matches nor throws a transport
exception, and the global provider finds nothing), resolution fails
with exactly `GeocodingError("Address not found: " ++ address)` — the
error carries the original address string, and nothing else raises. -/
theorem C7_address_not_found (address : String) (env : GeoEnv)
    (hvw : ∀ t, (env.vw t).isMatch = false ∧ (env.vw t).isTransport = false)
    (hnm : env.nm = .notFound) :
    geocode_address address env =
      .error (.geocodingError (.addressNotFound address)) := by
  have hR := hvw "ROAD"
  have hP := hvw "PARCEL"
  unfold geocode_address resolveCoords vworldLookup geocodeVworld
  by_cases hko : env.lang = "ko" ∧ env.hasVworldKey = true
  · rw [if_pos hko]
    cases hRoad : env.vw "ROAD" <;>
      rw [hRoad] at hR <;>
      simp [VwOutcome.isMatch, VwOutcome.isTransport] at hR <;>
      cases hParcel : env.vw "PARCEL" <;>
        rw [hParcel] at hP <;>
        simp [VwOutcome.isMatch, VwOutcome.isTransport] at hP <;>
        simp [hnm]
  · rw [if_neg hko]
    simp [hnm]

/-- C7 witness. -/
theorem C7_address_not_found_witness :
    (∀ t, ((fun (_ : String) => VwOutcome.errStatus "SYSTEM_ERROR") t).isMatch
        = false ∧
      ((fun (_ : String) => VwOutcome.errStatus "SYSTEM_ERROR") t).isTransport
        = false) ∧
    geocode_address "Atlantis"
      { lang := "ko", hasVworldKey := true
        vw := fun _ => .errStatus "SYSTEM_ERROR"
        nm := .notFound
        parseOk := true
        tzAt := fun _ _ => some "UTC"
        localize := fun _ => some 0 } =
      .error (.geocodingError (.addressNotFound "Atlantis")) :=
  ⟨fun _ => ⟨rfl, rfl⟩,
   C7_address_not_found "Atlantis" _ (fun _ => ⟨rfl, rfl⟩) rfl⟩

/-- C8: once coordinates are resolved and the time string parses, the
query fails with `GeocodingError("Timezone not found: ...")` exactly
when the timezone lookup returns `none` for the resolved coordinates,
and that failure is the same exception class (`GeocodingError`) as the
address-not-found failure, so callers catching `GeocodingError` see
both identically. -/
theorem C8_timezone_failure_iff_null_lookup (address : String)
    (env : GeoEnv) (lat lng : ℚ) (display : String)
    (hres : resolveCoords address env = .ok (lat, lng, display))
    (hparse : env.parseOk = true) :
    (geocode_address address env =
        .error (.geocodingError (.timezoneNotFound lat lng)) ↔
      env.tzAt lat lng = none) ∧
    (PyExc.geocodingError (.timezoneNotFound lat lng)).isGeocodingError
      = true ∧
    (PyExc.geocodingError (.addressNotFound address)).isGeocodingError
      = true := by
  refine ⟨?_, rfl, rfl⟩
  unfold geocode_address
  rw [hres]
  unfold buildFrame
  rw [hparse]
  simp only [Bool.true_eq_false, if_false]
  cases htz : env.tzAt lat lng with
  | none => simp
  | some z => cases hloc : env.localize z <;> simp [hloc]

/-- C8 witness. -/
theorem C8_timezone_failure_witness :
    resolveCoords "mid-ocean point"
      { lang := "en", hasVworldKey := false
        vw := fun _ => .notFound
        nm := .ok 1 2 "Somewhere at sea"
        parseOk := true
        tzAt := fun _ _ => none
        localize := fun _ => some 0 } = .ok (1, 2, "Somewhere at sea") ∧
    ((geocode_address "mid-ocean point"
        { lang := "en", hasVworldKey := false
          vw := fun _ => .notFound
          nm := .ok 1 2 "Somewhere at sea"
          parseOk := true
          tzAt := fun _ _ => none
          localize := fun _ => some 0 } =
        .error (.geocodingError (.timezoneNotFound 1 2)) ↔
      (fun (_ _ : ℚ) => (none : Option String)) 1 2 = none) ∧
    (PyExc.geocodingError (.timezoneNotFound 1 2)).isGeocodingError
      = true ∧
    (PyExc.geocodingError (.addressNotFound "mid-ocean point")).isGeocodingError
      = true) :=
  ⟨rfl, C8_timezone_failure_iff_null_lookup "mid-ocean point" _ 1 2
    "Somewhere at sea" rfl rfl⟩

/-- C9: on the regional path (`lang = "ko"`, key configured): a ROAD
match is used as-is — the result is independent of both the PARCEL
oracle and the global provider — with `point.y`/`point.x` as
latitude/longitude and the refined text as display address; when ROAD
reports explicit not-found and PARCEL matches, that match is used,
independently of the global provider; when ROAD reports anything other
than not-found, the PARCEL oracle is never consulted (the result is
unchanged under any replacement of it); and on any successful query the
regional display string ends up as the context's display address. -/
theorem C9_regional_provider_precedence (address : String) (env : GeoEnv)
    (hko : env.lang = "ko") (hkey : env.hasVworldKey = true) :
    (∀ x y r, env.vw "ROAD" = .ok x y r →
      resolveCoords address env = .ok (y, x, r) ∧
      ∀ (p : VwOutcome) (n : NmOutcome),
        resolveCoords address
          { env with vw := fun t => if t = "PARCEL" then p else env.vw t
                     nm := n } = .ok (y, x, r)) ∧
    (∀ x y r, env.vw "ROAD" = .notFound → env.vw "PARCEL" = .ok x y r →
      resolveCoords address env = .ok (y, x, r) ∧
      ∀ (n : NmOutcome),
        resolveCoords address { env with nm := n } = .ok (y, x, r)) ∧
    ((env.vw "ROAD").isNotFound = false →
      ∀ (p : VwOutcome),
        resolveCoords address
            { env with vw := fun t => if t = "PARCEL" then p else env.vw t }
          = resolveCoords address env) ∧
    (∀ lat lng disp ctx, resolveCoords address env = .ok (lat, lng, disp) →
      geocode_address address env = .ok ctx →
      ctx.addressDisplay = disp ∧ ctx.lat = lat ∧ ctx.lng = lng) := by
  refine ⟨?_, ?_, ?_, ?_⟩
  · intro x y r hRoad
    constructor
    · simp [resolveCoords, hko, hkey, vworldLookup, geocodeVworld, hRoad]
    · intro p n
      simp [resolveCoords, hko, hkey, vworldLookup, geocodeVworld, hRoad]
  · intro x y r hRoad hParcel
    constructor
    · simp [resolveCoords, hko, hkey, vworldLookup, geocodeVworld, hRoad,
        hParcel]
    · intro n
      simp [resolveCoords, hko, hkey, vworldLookup, geocodeVworld, hRoad,
        hParcel]
  · intro hRoad p
    cases hR : env.vw "ROAD" <;> rw [hR] at hRoad <;>
      simp [VwOutcome.isNotFound] at hRoad <;>
      simp [resolveCoords, hko, hkey, vworldLookup, geocodeVworld, hR]
  · intro lat lng disp ctx hres hok
    simp only [geocode_address, hres] at hok
    unfold buildFrame at hok
    split at hok
    · simp at hok
    · split at hok
      · simp at hok
      · split at hok
        · simp at hok
        · rw [Except.ok.injEq] at hok
          subst hok
          exact ⟨rfl, rfl, rfl⟩

/-- C9 witness. -/
theorem C9_regional_provider_precedence_witness :
    ("ko" = "ko" ∧ true = true) ∧
    resolveCoords "Gaya-dong"
      { lang := "ko", hasVworldKey := true
        vw := fun t => if t = "ROAD" then .ok 129 35 "Busan Gaya-dong"
              else .notFound
        nm := .notFound
        parseOk := true
        tzAt := fun _ _ => some "Asia/Seoul"
        localize := fun _ => some 0 } = .ok (35, 129, "Busan Gaya-dong") :=
  ⟨⟨rfl, rfl⟩,
    ((C9_regional_provider_precedence "Gaya-dong" _ rfl rfl).1 129 35
      "Busan Gaya-dong" rfl).1⟩

/-! ### Theorems: constellation line table parsing -/

/-- C5 counterexample: a record with exactly one ID pair (2 HIP IDs,
i.e. 4 whitespace tokens) is *not* skipped — `load_constellation_lines`
decodes it into one segment, while the claim says every record with
fewer than 2 ID pairs (fewer than 4 HIP IDs) is skipped. -/
theorem C5_one_pair_record_not_skipped :
    load_constellation_lines [⟨"Oct", [1, 100, 200]⟩] =
      [⟨100, 200, "Oct"⟩] ∧
    load_constellation_lines [⟨"Oct", [1, 100, 200]⟩] ≠ [] :=
  ⟨rfl, by simp [load_constellation_lines, pairSegs]⟩

/-- C5 (amended): every record with fewer than 1 ID pair — fewer than
2 HIP IDs, i.e. fewer than 4 whitespace tokens — is skipped, and each
retained record is decoded into segments from consecutive
non-overlapping ID pairs (1st-with-2nd, 3rd-with-4th, ...), a trailing
unpaired ID being ignored; records decode independently of each
other. -/
theorem C5_record_decoding
    (name : String) (c a b : ℤ) (fields t : List ℤ) (r : FabRecord)
    (rs : List FabRecord) :
    (fields.length < 3 → load_constellation_lines [⟨name, fields⟩] = []) ∧
    load_constellation_lines [⟨name, c :: a :: b :: t⟩] =
      ⟨a, b, name⟩ :: load_constellation_lines [⟨name, c :: t⟩] ∧
    load_constellation_lines (r :: rs) =
      load_constellation_lines [r] ++ load_constellation_lines rs := by
  refine ⟨?_, ?_, ?_⟩
  · intro hlen
    simp only [load_constellation_lines, List.flatMap_cons,
      List.flatMap_nil, List.append_nil]
    rw [if_pos (by omega)]
  · have hload : ∀ (u : List ℤ),
        load_constellation_lines [⟨name, c :: u⟩] = pairSegs name u := by
      intro u
      simp only [load_constellation_lines, List.flatMap_cons,
        List.flatMap_nil, List.append_nil, List.length_cons,
        List.drop_one, List.tail_cons]
      match u with
      | [] =>
          rw [if_pos (by simp only [List.length_nil]; omega)]
          rfl
      | [x] =>
          rw [if_pos (by simp only [List.length_cons, List.length_nil]; omega)]
          rfl
      | x :: y :: u' =>
          rw [if_neg (by simp only [List.length_cons]; omega)]
    rw [hload, hload]
    rfl
  · simp [load_constellation_lines]

/-- C5 witness. -/
theorem C5_record_decoding_witness :
    ([] : List ℤ).length < 3 ∧
    load_constellation_lines [⟨"Oct", ([] : List ℤ)⟩] = [] :=
  ⟨by decide,
   (C5_record_decoding "Oct" 0 0 0 [] [] ⟨"Oct", []⟩ []).1 (by decide)⟩

/-! ### Theorems: star list and visible segments -/

theorem mem_visibleHips (records : List StarRecord) (h : ℤ) :
    h ∈ visibleHips records ↔
      ∃ r ∈ records, 0 ≤ r.alt_deg ∧ r.hip = h := by
  simp only [visibleHips, List.mem_map, List.mem_filter,
    decide_eq_true_eq]
  constructor
  · rintro ⟨r, ⟨hr, halt⟩, hhip⟩
    exact ⟨r, hr, halt, hhip⟩
  · rintro ⟨r, hr, halt, hhip⟩
    exact ⟨r, ⟨hr, halt⟩, hhip⟩

/-- C3: a segment is in the output's visible-segments list iff it is in
the constellation line table and both its endpoint catalog IDs occur
among the computed observations with altitude ≥ 0; and the
visible-segments list is a sublist of the table (catalog file order is
preserved). -/
theorem C3_visible_segments_iff_and_ordered (catalog : List CatalogRow)
    (allLines : List ConstellationLine) (sky : ℤ → ℝ × ℝ × ℝ × ℝ)
    (lim : ℝ) :
    (∀ l, l ∈ (compute_sky_data catalog allLines sky lim).constellation_lines
        ↔ l ∈ allLines ∧
          (∃ r ∈ (compute_sky_data catalog allLines sky lim).stars,
            0 ≤ r.alt_deg ∧ r.hip = l.hip_from) ∧
          (∃ r ∈ (compute_sky_data catalog allLines sky lim).stars,
            0 ≤ r.alt_deg ∧ r.hip = l.hip_to)) ∧
    List.Sublist
      (compute_sky_data catalog allLines sky lim).constellation_lines
      allLines := by
  constructor
  · intro l
    show l ∈ visibleLines allLines (buildRecords catalog lim sky) ↔ _
    simp only [visibleLines, List.mem_filter, decide_eq_true_eq,
      Bool.decide_and, Bool.and_eq_true, mem_visibleHips]
    show _ ↔ l ∈ allLines ∧
      (∃ r ∈ buildRecords catalog lim sky, _) ∧
      (∃ r ∈ buildRecords catalog lim sky, _)
    tauto
  · exact List.filter_sublist _

/-- C4: with every catalog entry carrying coordinates, the output stars
list is exactly the catalog entries of magnitude ≤ the limit, in
original catalog order (witnessed by the `(hip, magnitude)` projection),
and no altitude filter is applied: any magnitude-passing entry appears
regardless of the alt/az oracle. -/
theorem C4_stars_are_magnitude_filtered (catalog : List CatalogRow)
    (allLines : List ConstellationLine) (sky : ℤ → ℝ × ℝ × ℝ × ℝ)
    (lim : ℝ)
    (hcoords : ∀ r ∈ catalog, r.ra.isSome ∧ r.dec.isSome) :
    ((compute_sky_data catalog allLines sky lim).stars.map
        fun s => (s.hip, s.magnitude)) =
      ((catalog.filter fun r => r.magnitude ≤ lim).map
        fun r => (r.hip, r.magnitude)) ∧
    (∀ r ∈ catalog, r.magnitude ≤ lim →
      ∃ s ∈ (compute_sky_data catalog allLines sky lim).stars,
        s.hip = r.hip ∧ s.magnitude = r.magnitude) := by
  have hdf : starsDf catalog lim = catalog.filter fun r => r.magnitude ≤ lim := by
    unfold starsDf
    apply List.filter_eq_self.mpr
    intro r hr
    have := hcoords r (List.mem_of_mem_filter hr)
    simp [this.1, this.2]
  constructor
  · show ((buildRecords catalog lim sky).map fun s => (s.hip, s.magnitude)) = _
    unfold buildRecords
    rw [hdf, List.map_map]
    rfl
  · intro r hr hmag
    show ∃ s ∈ buildRecords catalog lim sky, _
    unfold buildRecords
    rw [hdf]
    refine ⟨_, List.mem_map_of_mem _ (List.mem_filter.mpr ⟨hr, by simpa⟩),
      rfl, rfl⟩

/-- C4 witness: the spec's test — catalog magnitudes `[1.0, 6.0, 7.0]`
with limit `6.5` retain exactly the first two entries, in order. -/
theorem C4_stars_witness :
    (∀ r ∈ [(⟨1, some 0, some 0, 1⟩ : CatalogRow),
            ⟨2, some 0, some 0, 6⟩, ⟨3, some 0, some 0, 7⟩],
      r.ra.isSome ∧ r.dec.isSome) ∧
    ((compute_sky_data
        [⟨1, some 0, some 0, 1⟩, ⟨2, some 0, some 0, 6⟩,
         ⟨3, some 0, some 0, 7⟩]
        [] (fun _ => (0, 0, 0, 0)) (13 / 2)).stars.map
        fun s => (s.hip, s.magnitude)) =
      (([(⟨1, some 0, some 0, 1⟩ : CatalogRow),
         ⟨2, some 0, some 0, 6⟩,
         ⟨3, some 0, some 0, 7⟩].filter fun r => r.magnitude ≤ 13 / 2).map
        fun r => (r.hip, r.magnitude)) ∧
    (([(⟨1, some 0, some 0, 1⟩ : CatalogRow),
       ⟨2, some 0, some 0, 6⟩,
       ⟨3, some 0, some 0, 7⟩].filter fun r => r.magnitude ≤ 13 / 2).map
        fun r => (r.hip, r.magnitude)) = [(1, 1), (2, 6)] := by
  have hc : ∀ r ∈ [(⟨1, some 0, some 0, 1⟩ : CatalogRow),
      ⟨2, some 0, some 0, 6⟩, ⟨3, some 0, some 0, 7⟩],
      r.ra.isSome ∧ r.dec.isSome := by
    intro r hr
    simp only [List.mem_cons, List.not_mem_nil, or_false] at hr
    rcases hr with h | h | h <;> subst h <;> exact ⟨rfl, rfl⟩
  refine ⟨hc,
    (C4_stars_are_magnitude_filtered _ [] (fun _ => (0, 0, 0, 0)) (13 / 2)
      hc).1, ?_⟩
  have h1 : ((1 : ℝ) ≤ 13 / 2) := by norm_num
  have h2 : ((6 : ℝ) ≤ 13 / 2) := by norm_num
  have h3 : ¬((7 : ℝ) ≤ 13 / 2) := by norm_num
  simp [List.filter, h1, h2, h3]

/-! ### Lemmas on Python rounding -/

theorem fract_def (x : ℝ) : Int.fract x = x - (⌊x⌋ : ℝ) := rfl

theorem floor_le_pyRound (x : ℝ) : ⌊x⌋ ≤ pyRound x := by
  unfold pyRound
  split_ifs <;> omega

theorem pyRound_nonneg (x : ℝ) (hx : 0 ≤ x) : 0 ≤ pyRound x :=
  le_trans (Int.floor_nonneg.mpr hx) (floor_le_pyRound x)

theorem floor_lt_of_fract_ne (x : ℝ) (n : ℤ) (hx : x ≤ (n : ℝ))
    (hf : Int.fract x ≠ 0) : ⌊x⌋ < n := by
  have hfl : ⌊x⌋ ≤ n := by
    have := Int.floor_le_floor hx
    rwa [Int.floor_intCast] at this
  refine lt_of_le_of_ne hfl fun heq => hf ?_
  have h1 : (⌊x⌋ : ℝ) ≤ x := Int.floor_le x
  have h2 : x ≤ (⌊x⌋ : ℝ) := by rw [heq]; exact hx
  rw [fract_def]
  linarith

theorem pyRound_le (x : ℝ) (n : ℤ) (hx : x ≤ (n : ℝ)) : pyRound x ≤ n := by
  have hfl : ⌊x⌋ ≤ n := by
    have := Int.floor_le_floor hx
    rwa [Int.floor_intCast] at this
  unfold pyRound
  split_ifs with h1 h2 h3
  · exact hfl
  · have := floor_lt_of_fract_ne x n hx (by linarith)
    omega
  · exact hfl
  · have hne : Int.fract x ≠ 0 := by
      intro h0
      rw [h0] at h1
      norm_num at h1
    have := floor_lt_of_fract_ne x n hx hne
    omega

theorem abs_pyRound_sub_le (x : ℝ) : |(pyRound x : ℝ) - x| ≤ 1 / 2 := by
  have hfr := fract_def x
  have hnn := Int.fract_nonneg x
  have hlt := Int.fract_lt_one x
  unfold pyRound
  split_ifs with h1 h2 h3 <;> rw [abs_le] <;> constructor <;>
    push_cast <;> linarith

theorem round1_int_div (x : ℝ) : ∃ k : ℤ, round1 x = (k : ℝ) / 10 :=
  ⟨pyRound (10 * x), rfl⟩

theorem abs_round1_sub_le (x : ℝ) : |round1 x - x| ≤ 1 / 20 := by
  have h := abs_pyRound_sub_le (10 * x)
  rw [round1]
  have heq : (pyRound (10 * x) : ℝ) / 10 - x =
      ((pyRound (10 * x) : ℝ) - 10 * x) / 10 := by ring
  rw [heq, abs_div]
  rw [abs_of_pos (by norm_num : (0 : ℝ) < 10)]
  linarith

theorem round1_nonneg (x : ℝ) (hx : 0 ≤ x) : 0 ≤ round1 x := by
  rw [round1]
  have : (0 : ℤ) ≤ pyRound (10 * x) := pyRound_nonneg _ (by linarith)
  positivity

theorem round1_le_90 (x : ℝ) (hx : x ≤ 90) : round1 x ≤ 90 := by
  rw [round1]
  have h : pyRound (10 * x) ≤ (900 : ℤ) := by
    apply pyRound_le
    push_cast
    linarith
  have : (pyRound (10 * x) : ℝ) ≤ 900 := by exact_mod_cast h
  linarith

/-! ### Lemmas on the weighted mean -/

theorem sum_weights_nonneg (stars : List StarRecord)
    (hm : ∀ s ∈ stars, -3 < s.magnitude) :
    0 ≤ (stars.map fun s => 1 / (s.magnitude + 3)).sum := by
  induction stars with
  | nil => simp
  | cons a l ih =>
      simp only [List.map_cons, List.sum_cons]
      have ha : 0 < a.magnitude + 3 := by
        have := hm a (List.mem_cons_self a l)
        linarith
      have hl := ih fun s hs => hm s (List.mem_cons_of_mem a hs)
      positivity

theorem sum_weights_pos (stars : List StarRecord) (hne : stars ≠ [])
    (hm : ∀ s ∈ stars, -3 < s.magnitude) :
    0 < (stars.map fun s => 1 / (s.magnitude + 3)).sum := by
  cases stars with
  | nil => exact absurd rfl hne
  | cons a l =>
      simp only [List.map_cons, List.sum_cons]
      have ha : 0 < a.magnitude + 3 := by
        have := hm a (List.mem_cons_self a l)
        linarith
      have hl := sum_weights_nonneg l fun s hs =>
        hm s (List.mem_cons_of_mem a hs)
      have : 0 < 1 / (a.magnitude + 3) := by positivity
      linarith

theorem sum_weighted_alt_nonneg (stars : List StarRecord)
    (hm : ∀ s ∈ stars, -3 < s.magnitude)
    (ha : ∀ s ∈ stars, 0 ≤ s.alt_deg) :
    0 ≤ (stars.map fun s => (1 / (s.magnitude + 3)) * s.alt_deg).sum := by
  induction stars with
  | nil => simp
  | cons a l ih =>
      simp only [List.map_cons, List.sum_cons]
      have h1 : 0 < a.magnitude + 3 := by
        have := hm a (List.mem_cons_self a l)
        linarith
      have h2 := ha a (List.mem_cons_self a l)
      have hl := ih (fun s hs => hm s (List.mem_cons_of_mem a hs))
        (fun s hs => ha s (List.mem_cons_of_mem a hs))
      have : 0 ≤ (1 / (a.magnitude + 3)) * a.alt_deg := by positivity
      linarith

theorem sum_weighted_alt_le (stars : List StarRecord)
    (hm : ∀ s ∈ stars, -3 < s.magnitude)
    (ha : ∀ s ∈ stars, s.alt_deg ≤ 90) :
    (stars.map fun s => (1 / (s.magnitude + 3)) * s.alt_deg).sum ≤
      90 * (stars.map fun s => 1 / (s.magnitude + 3)).sum := by
  induction stars with
  | nil => simp
  | cons a l ih =>
      simp only [List.map_cons, List.sum_cons]
      have h1 : 0 < a.magnitude + 3 := by
        have := hm a (List.mem_cons_self a l)
        linarith
      have h2 := ha a (List.mem_cons_self a l)
      have hw : 0 < 1 / (a.magnitude + 3) := by positivity
      have hterm : (1 / (a.magnitude + 3)) * a.alt_deg ≤
          90 * (1 / (a.magnitude + 3)) := by nlinarith
      have hl := ih (fun s hs => hm s (List.mem_cons_of_mem a hs))
        (fun s hs => ha s (List.mem_cons_of_mem a hs))
      linarith

theorem meanPosition_alt_bounds (stars : List StarRecord)
    (hne : stars ≠ [])
    (hm : ∀ s ∈ stars, -3 < s.magnitude)
    (ha : ∀ s ∈ stars, 0 ≤ s.alt_deg ∧ s.alt_deg ≤ 90) :
    0 ≤ (meanPosition stars).2 ∧ (meanPosition stars).2 ≤ 90 := by
  have hW := sum_weights_pos stars hne hm
  have hnum0 := sum_weighted_alt_nonneg stars hm fun s hs => (ha s hs).1
  have hnum90 := sum_weighted_alt_le stars hm fun s hs => (ha s hs).2
  show 0 ≤ (stars.map fun s => (1 / (s.magnitude + 3)) * s.alt_deg).sum /
      (stars.map fun s => 1 / (s.magnitude + 3)).sum ∧ _
  constructor
  · exact div_nonneg hnum0 (le_of_lt hW)
  · show (stars.map fun s => (1 / (s.magnitude + 3)) * s.alt_deg).sum /
        (stars.map fun s => 1 / (s.magnitude + 3)).sum ≤ 90
    rw [div_le_iff₀ hW]
    linarith

/-! ### Lemmas on constellation positions -/

theorem lookupRec_mem (records : List StarRecord) (h : ℤ) (r : StarRecord)
    (hl : lookupRec records h = some r) :
    r ∈ records ∧ 0 ≤ r.alt_deg ∧ r.hip = h := by
  unfold lookupRec at hl
  have h1 := List.mem_of_find?_eq_some hl
  have h2 := List.find?_some hl
  rw [List.mem_reverse, List.mem_filter] at h1
  simp only [decide_eq_true_eq] at h1 h2
  exact ⟨h1.1, h1.2, h2⟩

theorem constellationHips_lookup_isSome (allLines : List ConstellationLine)
    (records : List StarRecord) (name : String) :
    ∀ h ∈ constellationHips allLines records name,
      (lookupRec records h).isSome = true := by
  intro h hh
  unfold constellationHips at hh
  rw [List.mem_dedup, List.mem_filter] at hh
  simpa using hh.2

theorem memberStars_sound (allLines : List ConstellationLine)
    (records : List StarRecord) (name : String) :
    ∀ s ∈ memberStars allLines records name,
      s ∈ records ∧ 0 ≤ s.alt_deg := by
  intro s hs
  unfold memberStars at hs
  rw [List.mem_filterMap] at hs
  obtain ⟨h, _, hl⟩ := hs
  exact ⟨(lookupRec_mem records h s hl).1, (lookupRec_mem records h s hl).2.1⟩

theorem memberStars_ne_nil (allLines : List ConstellationLine)
    (records : List StarRecord) (name : String)
    (hne : constellationHips allLines records name ≠ []) :
    memberStars allLines records name ≠ [] := by
  obtain ⟨h, hh⟩ := List.exists_mem_of_ne_nil _ hne
  have hsome := constellationHips_lookup_isSome allLines records name h hh
  obtain ⟨s, hs⟩ := Option.isSome_iff_exists.mp hsome
  apply List.ne_nil_of_mem (a := s)
  unfold memberStars
  rw [List.mem_filterMap]
  exact ⟨h, hh, hs⟩

theorem position_shape (allLines : List ConstellationLine)
    (records : List StarRecord) (names : List String)
    (p : ConstellationPosition)
    (hp : p ∈ computeConstellationPositions allLines records names) :
    ∃ name, memberStars allLines records name ≠ [] ∧
      p.az_deg = round1 (meanPosition (memberStars allLines records name)).1 ∧
      p.alt_deg =
        round1 (meanPosition (memberStars allLines records name)).2 := by
  unfold computeConstellationPositions at hp
  rw [List.mem_filterMap] at hp
  obtain ⟨name, _, heq⟩ := hp
  unfold positionOf at heq
  by_cases hnil : constellationHips allLines records name = []
  · rw [if_pos hnil] at heq
    exact absurd heq (by simp)
  · rw [if_neg hnil] at heq
    rw [Option.some.injEq] at heq
    subst heq
    exact ⟨name, memberStars_ne_nil allLines records name hnil, rfl, rfl⟩

/-- C6: whenever every record has magnitude above −3 (true of all
Hipparcos magnitudes) and altitude at most 90°, every emitted
`ConstellationPosition` has its mean altitude in [0, 90]: only
above-horizon (altitude ≥ 0) stars enter the aggregation, all weights
`1/(magnitude+3)` are positive, the weighted average of values in
[0, 90] stays in [0, 90], and rounding to one decimal keeps [0, 90]. -/
theorem C6_mean_altitude_in_range (allLines : List ConstellationLine)
    (records : List StarRecord) (names : List String)
    (hm : ∀ r ∈ records, -3 < r.magnitude)
    (ha : ∀ r ∈ records, r.alt_deg ≤ 90) :
    ∀ p ∈ computeConstellationPositions allLines records names,
      0 ≤ p.alt_deg ∧ p.alt_deg ≤ 90 := by
  intro p hp
  obtain ⟨name, hne, _, halt⟩ :=
    position_shape allLines records names p hp
  have hsound := memberStars_sound allLines records name
  have hbounds := meanPosition_alt_bounds (memberStars allLines records name)
    hne
    (fun s hs => hm s (hsound s hs).1)
    (fun s hs => ⟨(hsound s hs).2, ha s (hsound s hs).1⟩)
  rw [halt]
  exact ⟨round1_nonneg _ hbounds.1, round1_le_90 _ hbounds.2⟩

/-- C6 witness. -/
theorem C6_mean_altitude_witness :
    (∀ r ∈ [(⟨1, 0, 0, 0, 0, 0, 10, 45⟩ : StarRecord)], -3 < r.magnitude) ∧
    (∀ r ∈ [(⟨1, 0, 0, 0, 0, 0, 10, 45⟩ : StarRecord)], r.alt_deg ≤ 90) ∧
    ∀ p ∈ computeConstellationPositions [⟨1, 1, "ORI"⟩]
        [(⟨1, 0, 0, 0, 0, 0, 10, 45⟩ : StarRecord)] ["ORI"],
      0 ≤ p.alt_deg ∧ p.alt_deg ≤ 90 := by
  have hm : ∀ r ∈ [(⟨1, 0, 0, 0, 0, 0, 10, 45⟩ : StarRecord)],
      -3 < r.magnitude := by
    intro r hr
    simp only [List.mem_cons, List.not_mem_nil, or_false] at hr
    subst hr
    norm_num
  have ha : ∀ r ∈ [(⟨1, 0, 0, 0, 0, 0, 10, 45⟩ : StarRecord)],
      r.alt_deg ≤ 90 := by
    intro r hr
    simp only [List.mem_cons, List.not_mem_nil, or_false] at hr
    subst hr
    norm_num
  exact ⟨hm, ha, C6_mean_altitude_in_range _ _ _ hm ha⟩

/-! ### Lemmas on the circular mean -/

theorem atan2_zero_of_nonneg (c : ℝ) (hc : 0 ≤ c) : atan2 0 c = 0 := by
  unfold atan2
  rw [Complex.ofReal_zero, zero_mul, add_zero]
  exact Complex.arg_ofReal_of_nonneg hc

theorem degrees_zero : degrees 0 = 0 := by
  unfold degrees
  ring

theorem fmod360_zero : fmod360 0 = 0 := by
  unfold fmod360
  norm_num

theorem round1_zero : round1 0 = 0 := by
  unfold round1 pyRound
  rw [mul_zero, Int.fract_zero, if_pos (by norm_num)]
  norm_num

/-- `sin 350° = -sin 10°` (in radians). -/
theorem sin_radians_350 :
    Real.sin (radians 350) = -Real.sin (radians 10) := by
  have h : radians 350 = -(radians 10) + 2 * Real.pi := by
    unfold radians
    ring
  rw [h, Real.sin_add_two_pi, Real.sin_neg]

/-- `cos 350° = cos 10°` (in radians). -/
theorem cos_radians_350 :
    Real.cos (radians 350) = Real.cos (radians 10) := by
  have h : radians 350 = -(radians 10) + 2 * Real.pi := by
    unfold radians
    ring
  rw [h, Real.cos_add_two_pi, Real.cos_neg]

theorem cos_radians_10_pos : 0 < Real.cos (radians 10) := by
  have hπ := Real.pi_pos
  apply Real.cos_pos_of_mem_Ioo
  constructor
  · show -(Real.pi / 2) < radians 10
    unfold radians
    nlinarith
  · show radians 10 < Real.pi / 2
    unfold radians
    nlinarith

/-- Recovering the azimuth from its sine and cosine: for
`az ∈ [0, 360)`, `atan2(sin az°, cos az°)` in degrees, reduced modulo
360, is `az` again. -/
theorem fmod360_degrees_atan2 (az : ℝ) (h0 : 0 ≤ az) (h360 : az < 360) :
    fmod360 (degrees (atan2 (Real.sin (radians az))
      (Real.cos (radians az)))) = az := by
  have hπ := Real.pi_pos
  rcases le_or_lt az 180 with hle | hgt
  · have harg : atan2 (Real.sin (radians az)) (Real.cos (radians az)) =
        radians az := by
      unfold atan2
      rw [Complex.ofReal_cos, Complex.ofReal_sin]
      apply Complex.arg_cos_add_sin_mul_I
      constructor
      · show -Real.pi < radians az
        unfold radians
        nlinarith
      · show radians az ≤ Real.pi
        unfold radians
        rw [div_le_iff₀ (by norm_num : (0 : ℝ) < 180)]
        nlinarith
    rw [harg]
    have hdeg : degrees (radians az) = az := by
      unfold degrees radians
      field_simp
    rw [hdeg]
    unfold fmod360
    have hfl : ⌊az / 360⌋ = 0 := by
      rw [Int.floor_eq_zero_iff]
      constructor
      · positivity
      · rw [div_lt_one (by norm_num : (0 : ℝ) < 360)]
        linarith
    rw [hfl]
    norm_num
  · have hsin : Real.sin (radians az) = Real.sin (radians az - 2 * Real.pi) := by
      rw [← Real.sin_add_two_pi (radians az - 2 * Real.pi)]
      ring_nf
    have hcos : Real.cos (radians az) = Real.cos (radians az - 2 * Real.pi) := by
      rw [← Real.cos_add_two_pi (radians az - 2 * Real.pi)]
      ring_nf
    have harg : atan2 (Real.sin (radians az)) (Real.cos (radians az)) =
        radians az - 2 * Real.pi := by
      unfold atan2
      rw [hsin, hcos, Complex.ofReal_cos, Complex.ofReal_sin]
      apply Complex.arg_cos_add_sin_mul_I
      constructor
      · show -Real.pi < radians az - 2 * Real.pi
        unfold radians
        rw [show -Real.pi = Real.pi - 2 * Real.pi by ring]
        apply sub_lt_sub_right
        rw [lt_div_iff₀ (by norm_num : (0 : ℝ) < 180)]
        nlinarith
      · show radians az - 2 * Real.pi ≤ Real.pi
        unfold radians
        rw [div_sub' _ _ _ (by norm_num : (180 : ℝ) ≠ 0),
          div_le_iff₀ (by norm_num : (0 : ℝ) < 180)]
        nlinarith
    rw [harg]
    have hdeg : degrees (radians az - 2 * Real.pi) = az - 360 := by
      unfold degrees radians
      field_simp
      ring
    rw [hdeg]
    unfold fmod360
    have hfl : ⌊(az - 360) / 360⌋ = -1 := by
      rw [Int.floor_eq_iff]
      constructor
      · push_cast
        rw [le_div_iff₀ (by norm_num : (0 : ℝ) < 360)]
        linarith
      · push_cast
        rw [div_lt_iff₀ (by norm_num : (0 : ℝ) < 360)]
        linarith
    rw [hfl]
    push_cast
    ring

/-- The weighted circular mean of a single star is its own azimuth and
altitude (before rounding). -/
theorem meanPosition_single (s : StarRecord) (hm : -3 < s.magnitude) :
    meanPosition [s] =
      (fmod360 (degrees (atan2 (Real.sin (radians s.az_deg))
        (Real.cos (radians s.az_deg)))), s.alt_deg) := by
  have hw : (1 : ℝ) / (s.magnitude + 3) ≠ 0 := by
    have h3 : 0 < s.magnitude + 3 := by linarith
    positivity
  unfold meanPosition
  simp only [List.map_cons, List.map_nil, List.sum_cons, List.sum_nil,
    add_zero]
  rw [mul_div_cancel_left₀ _ hw, mul_div_cancel_left₀ _ hw,
    mul_div_cancel_left₀ _ hw]

/-- C2: for a constellation of exactly two above-horizon stars of equal
magnitude at azimuths 350° and 10°, the brightness-weighted circular
mean azimuth computed by the engine is exactly 0° (hence within ±0.5°
of 0°), not the arithmetic mean 180°. -/
theorem C2_circular_mean_azimuth (m a₁ a₂ : ℝ) (hm : -3 < m)
    (h₁ : 0 ≤ a₁) (h₂ : 0 ≤ a₂) :
    ∃ p, computeConstellationPositions [⟨1, 2, "TST"⟩]
        [⟨1, 0, 0, m, 0, 0, 350, a₁⟩, ⟨2, 0, 0, m, 0, 0, 10, a₂⟩]
        ["TST"] = [p] ∧ p.az_deg = 0 ∧ p.az_deg ≠ 180 := by
  have hw3 : (0 : ℝ) < m + 3 := by linarith
  have hl1 : lookupRec [(⟨1, 0, 0, m, 0, 0, 350, a₁⟩ : StarRecord),
      ⟨2, 0, 0, m, 0, 0, 10, a₂⟩] 1 = some ⟨1, 0, 0, m, 0, 0, 350, a₁⟩ := by
    unfold lookupRec
    simp [List.filter, h₁, h₂, List.find?]
  have hl2 : lookupRec [(⟨1, 0, 0, m, 0, 0, 350, a₁⟩ : StarRecord),
      ⟨2, 0, 0, m, 0, 0, 10, a₂⟩] 2 = some ⟨2, 0, 0, m, 0, 0, 10, a₂⟩ := by
    unfold lookupRec
    simp [List.filter, h₁, h₂, List.find?]
  have hch : constellationHips [⟨1, 2, "TST"⟩]
      [(⟨1, 0, 0, m, 0, 0, 350, a₁⟩ : StarRecord),
       ⟨2, 0, 0, m, 0, 0, 10, a₂⟩] "TST" = [1, 2] := by
    unfold constellationHips
    simp [List.filter, List.flatMap, hl1, hl2, List.dedup]
  have hms : memberStars [⟨1, 2, "TST"⟩]
      [(⟨1, 0, 0, m, 0, 0, 350, a₁⟩ : StarRecord),
       ⟨2, 0, 0, m, 0, 0, 10, a₂⟩] "TST" =
      [⟨1, 0, 0, m, 0, 0, 350, a₁⟩, ⟨2, 0, 0, m, 0, 0, 10, a₂⟩] := by
    unfold memberStars
    rw [hch]
    simp [List.filterMap, hl1, hl2]
  have hmean : (meanPosition [(⟨1, 0, 0, m, 0, 0, 350, a₁⟩ : StarRecord),
      ⟨2, 0, 0, m, 0, 0, 10, a₂⟩]).1 = 0 := by
    have hcos10 := cos_radians_10_pos
    unfold meanPosition
    simp only [List.map_cons, List.map_nil, List.sum_cons, List.sum_nil,
      add_zero]
    have e1 : (1 / (m + 3) * Real.sin (radians
        ((⟨1, 0, 0, m, 0, 0, 350, a₁⟩ : StarRecord).az_deg)) +
        1 / (m + 3) * Real.sin (radians
        ((⟨2, 0, 0, m, 0, 0, 10, a₂⟩ : StarRecord).az_deg))) = 0 := by
      show (1 / (m + 3) * Real.sin (radians 350) +
        1 / (m + 3) * Real.sin (radians 10)) = 0
      rw [sin_radians_350]
      ring
    rw [e1]
    have e2 : (1 / (m + 3) * Real.cos (radians
        ((⟨1, 0, 0, m, 0, 0, 350, a₁⟩ : StarRecord).az_deg)) +
        1 / (m + 3) * Real.cos (radians
        ((⟨2, 0, 0, m, 0, 0, 10, a₂⟩ : StarRecord).az_deg))) =
        2 * (1 / (m + 3)) * Real.cos (radians 10) := by
      show (1 / (m + 3) * Real.cos (radians 350) +
        1 / (m + 3) * Real.cos (radians 10)) = _
      rw [cos_radians_350]
      ring
    rw [e2, zero_div]
    have hq : 0 ≤ 2 * (1 / (m + 3)) * Real.cos (radians 10) /
        (1 / (m + 3) + 1 / (m + 3)) := by positivity
    rw [atan2_zero_of_nonneg _ hq, degrees_zero, fmod360_zero]
  refine ⟨⟨"TST", round1 (meanPosition
      [(⟨1, 0, 0, m, 0, 0, 350, a₁⟩ : StarRecord),
       ⟨2, 0, 0, m, 0, 0, 10, a₂⟩]).1,
      round1 (meanPosition [(⟨1, 0, 0, m, 0, 0, 350, a₁⟩ : StarRecord),
       ⟨2, 0, 0, m, 0, 0, 10, a₂⟩]).2⟩, ?_, ?_, ?_⟩
  · unfold computeConstellationPositions
    simp [List.filterMap, positionOf, hch, hms]
  · show round1 _ = 0
    rw [hmean, round1_zero]
  · show round1 _ ≠ 180
    rw [hmean, round1_zero]
    norm_num

/-- C2 witness. -/
theorem C2_circular_mean_azimuth_witness :
    (-3 : ℝ) < 2 ∧
    ∃ p, computeConstellationPositions [⟨1, 2, "TST"⟩]
        [⟨1, 0, 0, 2, 0, 0, 350, 30⟩, ⟨2, 0, 0, 2, 0, 0, 10, 40⟩]
        ["TST"] = [p] ∧ p.az_deg = 0 ∧ p.az_deg ≠ 180 :=
  ⟨by norm_num,
   C2_circular_mean_azimuth 2 30 40 (by norm_num) (by norm_num) (by norm_num)⟩

/-- C10: every emitted position has azimuth and altitude equal to an
integer number of tenths of a degree (one decimal place, the azimuth
having been reduced modulo 360 before rounding); and a constellation
whose only above-horizon star sits at azimuth `az ∈ [0, 360)` and
altitude `alt ≥ 0` yields exactly `(round1 az, round1 alt)`, each
within 0.05° of the star's own value. -/
theorem C10_positions_rounded_one_decimal :
    (∀ (allLines : List ConstellationLine) (records : List StarRecord)
        (names : List String) (p : ConstellationPosition),
      p ∈ computeConstellationPositions allLines records names →
      (∃ k : ℤ, p.az_deg = (k : ℝ) / 10) ∧
      (∃ k : ℤ, p.alt_deg = (k : ℝ) / 10)) ∧
    (∀ az alt m : ℝ, -3 < m → 0 ≤ az → az < 360 → 0 ≤ alt →
      computeConstellationPositions [⟨1, 1, "TST"⟩]
          [⟨1, 0, 0, m, 0, 0, az, alt⟩] ["TST"] =
        [⟨"TST", round1 az, round1 alt⟩] ∧
      |round1 az - az| ≤ 1 / 20 ∧ |round1 alt - alt| ≤ 1 / 20) := by
  constructor
  · intro allLines records names p hp
    obtain ⟨name, _, haz, halt⟩ := position_shape allLines records names p hp
    rw [haz, halt]
    exact ⟨round1_int_div _, round1_int_div _⟩
  · intro az alt m hm h0 h360 halt
    have hl : lookupRec [(⟨1, 0, 0, m, 0, 0, az, alt⟩ : StarRecord)] 1 =
        some ⟨1, 0, 0, m, 0, 0, az, alt⟩ := by
      unfold lookupRec
      simp [List.filter, halt, List.find?]
    have hch : constellationHips [⟨1, 1, "TST"⟩]
        [(⟨1, 0, 0, m, 0, 0, az, alt⟩ : StarRecord)] "TST" = [1] := by
      unfold constellationHips
      simp [List.filter, List.flatMap, hl, List.dedup]
    have hms : memberStars [⟨1, 1, "TST"⟩]
        [(⟨1, 0, 0, m, 0, 0, az, alt⟩ : StarRecord)] "TST" =
        [⟨1, 0, 0, m, 0, 0, az, alt⟩] := by
      unfold memberStars
      rw [hch]
      simp [List.filterMap, hl]
    have hmean := meanPosition_single (⟨1, 0, 0, m, 0, 0, az, alt⟩ :
      StarRecord) hm
    refine ⟨?_, abs_round1_sub_le az, abs_round1_sub_le alt⟩
    have hpos : computeConstellationPositions [⟨1, 1, "TST"⟩]
        [(⟨1, 0, 0, m, 0, 0, az, alt⟩ : StarRecord)] ["TST"] =
        [⟨"TST",
          round1 (meanPosition
            [(⟨1, 0, 0, m, 0, 0, az, alt⟩ : StarRecord)]).1,
          round1 (meanPosition
            [(⟨1, 0, 0, m, 0, 0, az, alt⟩ : StarRecord)]).2⟩] := by
      unfold computeConstellationPositions
      simp [List.filterMap, positionOf, hch, hms]
    rw [hpos, hmean]
    have hrec : fmod360 (degrees (atan2 (Real.sin (radians az))
        (Real.cos (radians az)))) = az := fmod360_degrees_atan2 az h0 h360
    show ([⟨"TST", round1 (fmod360 (degrees (atan2 (Real.sin (radians az))
        (Real.cos (radians az))))), round1 alt⟩] :
      List ConstellationPosition) = _
    rw [hrec]

/-- C10 witness. -/
theorem C10_positions_rounded_witness :
    (-3 : ℝ) < 0 ∧
    (computeConstellationPositions [⟨1, 1, "TST"⟩]
        [⟨1, 0, 0, 0, 0, 0, 350, 45⟩] ["TST"] =
      [⟨"TST", round1 350, round1 45⟩] ∧
    |round1 350 - 350| ≤ 1 / 20 ∧ |round1 45 - (45 : ℝ)| ≤ 1 / 20) :=
  ⟨by norm_num,
   C10_positions_rounded_one_decimal.2 350 45 0 (by norm_num) (by norm_num)
     (by norm_num) (by norm_num)⟩

end ThatNightSky
